import Mathlib

/-!
Verification development for the peer replication / heartbeat engine
(`src/peer.go` of the repository, package `raft`).

The Go code is shallowly embedded: every peer method becomes a pure Lean
function that takes the peer state and the results of its external
collaborators (the transport's response, the timer's verdict, the node's
request builders) as explicit arguments and returns the Go return values
together with the post-state of the peer.  `uint64` fields are modelled as
`Nat` (the only subtraction, `p.prevLogIndex--`, is guarded by
`p.prevLogIndex > 0` in the source, so no wraparound can occur).  Go `error`
values are modelled as `Option RErr`, `nil` being `none`.  A Go `panic` is
modelled as a dedicated outcome constructor rather than a returned triple.
-/

namespace Raft

/-- One log entry; the core only ever reads its `Index` field (peer.go:202). -/
structure LogEntry where
  index : Nat
deriving DecidableEq, Repr

/-- The slice of fields of `AppendEntriesRequest` that `peer.go` reads:
`Entries` (peer.go:201-202). -/
structure AppendEntriesRequest where
  entries : List LogEntry
deriving DecidableEq, Repr

/-- The fields of `AppendEntriesResponse` read by `peer.go`:
`Success`, `Term`, `CommitIndex` (peer.go:200-219). -/
structure AppendEntriesResponse where
  term : Nat
  success : Bool
  commitIndex : Nat
deriving DecidableEq, Repr

/-- The field of `SnapshotRequest` read by `peer.go`: `LastIndex` (peer.go:155). -/
structure SnapshotRequest where
  lastIndex : Nat
deriving DecidableEq, Repr

/-- The fields of `SnapshotResponse` read by `peer.go`: `Success`, `Term`
(peer.go:154-161). -/
structure SnapshotResponse where
  term : Nat
  success : Bool
deriving DecidableEq, Repr

/-- Peer state (peer.go:16-22).  The mutex and the timer object are modelled
by the sequential embedding itself; the fields the replication logic reads
and writes are `name` and `prevLogIndex`. -/
structure Peer where
  name : String
  prevLogIndex : Nat
deriving DecidableEq, Repr

/-- Error values produced or passed through by `peer.go`:
`errors.New("raft.Peer: Request required")`, `errors.New("Network problem")`,
`errors.New("Step down")`, and an opaque error coming back from the
transport collaborator. -/
inductive RErr where
  | requestRequired
  | networkProblem
  | stepDown
  | transportErr (msg : String)
deriving DecidableEq, Repr

/-- Return value of a send path: the Go triple `(term, success, err)`
(peer.go returns `(uint64, bool, error)`) together with the post-state of
the peer, which the Go code mutates in place. -/
structure SendResult where
  term : Nat
  success : Bool
  err : Option RErr
  peer : Peer
deriving DecidableEq, Repr

/-- Outcome of a flush path that may `panic` (peer.go:158): either it
returns a `SendResult` or it panics carrying the offending response. -/
inductive FlushOutcome where
  | ok (r : SendResult)
  | panicked (resp : SnapshotResponse)
deriving DecidableEq, Repr

/-- `FlushResponse` (peer.go:24-29): term, success flag, error and the
back-reference to the originating peer, filled in by `heartbeat`. -/
structure FlushResponse where
  term : Nat
  success : Bool
  err : Option RErr
  peer : Peer
deriving DecidableEq, Repr

/-- `NewPeer` (peer.go:38-46): `prevLogIndex` starts at its zero value. -/
def NewPeer (name : String) : Peer :=
  { name := name, prevLogIndex := 0 }

/-- `clone` (peer.go:96-103): a detached copy carrying only name and
`prevLogIndex`. -/
def clone (p : Peer) : Peer :=
  { name := p.name, prevLogIndex := p.prevLogIndex }

/-- `sendFlushRequest` (peer.go:165-223).  `req?` is the argument (a nil Go
pointer is `none`); `resp?` is the value read from the 2-slot response
channel after racing the transport RPC against the heartbeat timeout
(peer.go:177-189): `none` covers both the timeout branch winning and the
transport delivering a nil response; `currentTerm` is
`p.server.currentTerm`. -/
def sendFlushRequest (currentTerm : Nat) (p : Peer)
    (req? : Option AppendEntriesRequest)
    (resp? : Option AppendEntriesResponse) : SendResult :=
  match req? with
  | none => ⟨0, false, some .requestRequired, p⟩
  | some req =>
    match resp? with
    | none => ⟨0, false, some .networkProblem, p⟩
    | some resp =>
      if resp.success then
        match req.entries.getLast? with
        | some e => ⟨resp.term, resp.success, none, { p with prevLogIndex := e.index }⟩
        | none => ⟨resp.term, resp.success, none, p⟩
      else if currentTerm < resp.term then
        ⟨resp.term, false, some .stepDown, p⟩
      else if p.prevLogIndex < resp.commitIndex then
        ⟨resp.term, resp.success, none, { p with prevLogIndex := resp.commitIndex }⟩
      else if 0 < p.prevLogIndex then
        ⟨resp.term, resp.success, none, { p with prevLogIndex := p.prevLogIndex - 1 }⟩
      else
        ⟨resp.term, resp.success, none, p⟩

/-- `sendSnapshotRequest` (peer.go:136-162).  `resp?` and `transportErr`
are the two values returned by `transporter.SendSnapshotRequest`; on a
non-nil unsuccessful response the source executes `panic(resp)`
(peer.go:158). -/
def sendSnapshotRequest (p : Peer) (req? : Option SnapshotRequest)
    (resp? : Option SnapshotResponse) (transportErr : Option RErr) : FlushOutcome :=
  match req? with
  | none => .ok ⟨0, false, some .requestRequired, p⟩
  | some req =>
    match resp? with
    | none => .ok ⟨0, false, transportErr, p⟩
    | some resp =>
      if resp.success then
        .ok ⟨resp.term, resp.success, transportErr, { p with prevLogIndex := req.lastIndex }⟩
      else
        .panicked resp

/-- `flush` (peer.go:111-123): `aeReq?` is the value returned by
`p.server.createAppendEntriesRequest(p.prevLogIndex)`, `snapReq?` the value
returned by `p.server.createSnapshotRequest()`; if the former is non-nil the
AppendEntries path runs, otherwise the Snapshot path runs. -/
def flush (currentTerm : Nat) (p : Peer)
    (aeReq? : Option AppendEntriesRequest) (aeResp? : Option AppendEntriesResponse)
    (snapReq? : Option SnapshotRequest) (snapResp? : Option SnapshotResponse)
    (snapErr : Option RErr) : FlushOutcome :=
  match aeReq? with
  | some req => .ok (sendFlushRequest currentTerm p (some req) aeResp?)
  | none => sendSnapshotRequest p snapReq? snapResp? snapErr

/-- Outcome of one iteration of the `heartbeat` loop body (peer.go:230-271).
`stopped`: the timer returned false and the loop returned (peer.go:266-269).
`continued`: the iteration finished and the loop proceeds to the next timer
wait; `commitSent` is the `FlushResponse` forwarded on the node's commit
channel `p.server.response`, when one was (peer.go:246-251).
`steppedDown`: the loop returned after exactly one non-blocking send attempt
of `term` on `p.server.stepDown`; `accepted` records whether the channel
took the value, and the loop returns in either select branch
(peer.go:255-263).
`panicked`: the flush panicked, so the goroutine dies abnormally. -/
inductive StepOutcome where
  | stopped (p : Peer)
  | continued (p : Peer) (commitSent : Option FlushResponse)
  | steppedDown (p : Peer) (term : Nat) (accepted : Bool)
  | panicked (resp : SnapshotResponse)
deriving DecidableEq, Repr

/-- One iteration of `heartbeat` (peer.go:230-271).  `timerFired` is the
value of `p.heartbeatTimer.Start()`; `commitIndex` is
`p.server.log.CommitIndex()`; `stepDownAccepts` tells which branch of the
non-blocking `select` runs when a step-down is signalled. -/
def heartbeatStep (currentTerm commitIndex : Nat) (p : Peer) (timerFired : Bool)
    (aeReq? : Option AppendEntriesRequest) (aeResp? : Option AppendEntriesResponse)
    (snapReq? : Option SnapshotRequest) (snapResp? : Option SnapshotResponse)
    (snapErr : Option RErr) (stepDownAccepts : Bool) : StepOutcome :=
  if timerFired then
    match flush currentTerm p aeReq? aeResp? snapReq? snapResp? snapErr with
    | .panicked resp => .panicked resp
    | .ok r =>
      if r.success then
        if commitIndex < r.peer.prevLogIndex then
          .continued r.peer (some ⟨r.term, r.success, r.err, r.peer⟩)
        else
          .continued r.peer none
      else if currentTerm < r.term then
        .steppedDown r.peer r.term stepDownAccepts
      else
        .continued r.peer none
  else
    .stopped p

/-- Modelled from the spec: `createAppendEntriesRequest(prevLogIndex)` is a
method of the owning node (`server.go`), which is not under `src/`.  Per the
spec it builds an AppendEntries request for the peer's current
`prevLogIndex` — carrying the log entries past that index — or returns no
request when the log has already discarded the entries this peer needs
(because a snapshot superseded them); `available` models that signal. -/
def createAppendEntriesRequest (log : List LogEntry) (available : Bool)
    (prevLogIndex : Nat) : Option AppendEntriesRequest :=
  if available then
    some ⟨log.filter (fun e => prevLogIndex < e.index)⟩
  else
    none

/-- One successful-path AppendEntries flush attempt driven by the node's
request builder, as `flush` performs it when the log still has the entries:
the request is built from the peer's current `prevLogIndex`. -/
def flushStep (currentTerm : Nat) (p : Peer) (log : List LogEntry)
    (resp : AppendEntriesResponse) : Peer :=
  (sendFlushRequest currentTerm p
      (createAppendEntriesRequest log true p.prevLogIndex) (some resp)).peer

/-- A sequence of AppendEntries flush attempts, each building its request
from the `prevLogIndex` left by the previous one. -/
def runFlushes (currentTerm : Nat) (p : Peer) :
    List (List LogEntry × AppendEntriesResponse) → Peer
  | [] => p
  | (log, resp) :: rest => runFlushes currentTerm (flushStep currentTerm p log resp) rest

/-- The `FlushResponse` a heartbeat iteration forwarded on the node's commit
channel `p.server.response` (peer.go:249), if any. -/
def commitSent : StepOutcome → Option FlushResponse
  | .continued _ s => s
  | _ => none

/-!  Theorems. -/

/-- C1, counterexample: at the concrete input of a non-nil snapshot response
with `Success = false`, `sendSnapshotRequest` panics (peer.go:158) instead of
falling through and returning the `(term, false, err)` triple, refuting the
claim that no panic occurs on this path. -/
theorem sendSnapshotRequest_failure_counterexample :
    sendSnapshotRequest ⟨"peer1", 4⟩ (some ⟨7⟩) (some ⟨2, false⟩) none
      = .panicked ⟨2, false⟩ := rfl

/-- C1 (amended): for every non-nil `SnapshotResponse` with `Success = false`
received by `sendSnapshotRequest`, the call panics on that response
(peer.go:158); the `(term, false, err)` triple is never returned to the
caller on this path. -/
theorem sendSnapshotRequest_failure_panics (p : Peer) (req : SnapshotRequest)
    (resp : SnapshotResponse) (transportErr : Option RErr)
    (hfail : resp.success = false) :
    sendSnapshotRequest p (some req) (some resp) transportErr = .panicked resp := by
  simp [sendSnapshotRequest, hfail]

/-- C1 witness: the amended theorem applied at a concrete failed response. -/
theorem sendSnapshotRequest_failure_panics_witness :
    sendSnapshotRequest ⟨"peer2", 9⟩ (some ⟨3⟩) (some ⟨6, false⟩)
        (some (.transportErr "io")) = .panicked ⟨6, false⟩ :=
  sendSnapshotRequest_failure_panics ⟨"peer2", 9⟩ ⟨3⟩ ⟨6, false⟩
    (some (.transportErr "io")) rfl

/-- C6: calling `sendFlushRequest` or `sendSnapshotRequest` with a nil
request returns `(0, false, "raft.Peer: Request required")` with the peer
state untouched, and the result does not depend on the transport's behaviour
(no transport call is consulted): peer.go:166-169 and peer.go:137-139. -/
theorem nil_request_guard (currentTerm : Nat) (p : Peer) :
    (∀ aeResp? : Option AppendEntriesResponse,
        sendFlushRequest currentTerm p none aeResp?
          = ⟨0, false, some .requestRequired, p⟩)
    ∧ (∀ (snapResp? : Option SnapshotResponse) (transportErr : Option RErr),
        sendSnapshotRequest p none snapResp? transportErr
          = .ok ⟨0, false, some .requestRequired, p⟩) := by
  constructor
  · intro aeResp?
    rfl
  · intro snapResp? transportErr
    rfl

/-- C10: on a non-nil AppendEntries response with `Success = false` and
`Term ≤ currentTerm` (the commit-index-correction or decrement path),
`sendFlushRequest` returns the triple `(resp.Term, false, nil)`: the error
component is nil even though success is false (peer.go:222 returns `nil`
for every non-step-down outcome). -/
theorem sendFlushRequest_ordinary_failure_nil_error (currentTerm : Nat)
    (p : Peer) (req : AppendEntriesRequest) (resp : AppendEntriesResponse)
    (hfail : resp.success = false) (hterm : resp.term ≤ currentTerm) :
    (sendFlushRequest currentTerm p (some req) (some resp)).term = resp.term
    ∧ (sendFlushRequest currentTerm p (some req) (some resp)).success = false
    ∧ (sendFlushRequest currentTerm p (some req) (some resp)).err = none := by
  have hnlt : ¬ currentTerm < resp.term := Nat.not_lt.mpr hterm
  simp only [sendFlushRequest, hfail, Bool.false_eq_true, if_false, hnlt]
  split
  · exact ⟨rfl, rfl, rfl⟩
  · split
    · exact ⟨rfl, rfl, rfl⟩
    · exact ⟨rfl, rfl, rfl⟩

/-- C10 witness: the theorem applied at a concrete ordinary failure. -/
theorem sendFlushRequest_ordinary_failure_nil_error_witness :
    (sendFlushRequest 5 ⟨"peer1", 4⟩ (some ⟨[]⟩) (some ⟨3, false, 0⟩)).term = 3
    ∧ (sendFlushRequest 5 ⟨"peer1", 4⟩ (some ⟨[]⟩) (some ⟨3, false, 0⟩)).success = false
    ∧ (sendFlushRequest 5 ⟨"peer1", 4⟩ (some ⟨[]⟩) (some ⟨3, false, 0⟩)).err = none :=
  sendFlushRequest_ordinary_failure_nil_error 5 ⟨"peer1", 4⟩ ⟨[]⟩ ⟨3, false, 0⟩
    rfl (by decide)

/-- C3: on a non-nil AppendEntries response with `Success = false` and
`Term ≤ currentTerm`: if the response's `CommitIndex` exceeds the current
`prevLogIndex` the cursor jumps to exactly that `CommitIndex`
(peer.go:212-213); otherwise, if `prevLogIndex > 0`, it is decremented by
exactly one (peer.go:214-219); and when it is already 0 (and no commit jump
applies) it stays 0, so it never goes below 0. -/
theorem sendFlushRequest_failure_backoff (currentTerm : Nat) (p : Peer)
    (req : AppendEntriesRequest) (resp : AppendEntriesResponse)
    (hfail : resp.success = false) (hterm : resp.term ≤ currentTerm) :
    (p.prevLogIndex < resp.commitIndex →
        (sendFlushRequest currentTerm p (some req) (some resp)).peer.prevLogIndex
          = resp.commitIndex)
    ∧ (resp.commitIndex ≤ p.prevLogIndex → 0 < p.prevLogIndex →
        (sendFlushRequest currentTerm p (some req) (some resp)).peer.prevLogIndex
          = p.prevLogIndex - 1)
    ∧ (p.prevLogIndex = 0 → resp.commitIndex = 0 →
        (sendFlushRequest currentTerm p (some req) (some resp)).peer.prevLogIndex
          = 0) := by
  have hnlt : ¬ currentTerm < resp.term := Nat.not_lt.mpr hterm
  simp only [sendFlushRequest, hfail, Bool.false_eq_true, if_false, hnlt]
  refine ⟨fun hjump => ?_, fun hle hpos => ?_, fun hzero hc => ?_⟩
  · simp [hjump]
  · simp [Nat.not_lt.mpr hle, hpos]
  · simp [hzero, hc]

/-- C3 witness: the theorem applied at a concrete failed response, on the
decrement path (`prevLogIndex` 4, `CommitIndex` 0, one decrement). -/
theorem sendFlushRequest_failure_backoff_witness :
    (sendFlushRequest 5 ⟨"peer1", 4⟩ (some ⟨[]⟩) (some ⟨3, false, 0⟩)).peer.prevLogIndex
      = 4 - 1 :=
  (sendFlushRequest_failure_backoff 5 ⟨"peer1", 4⟩ ⟨[]⟩ ⟨3, false, 0⟩ rfl
    (by decide)).2.1 (by decide) (by decide)

/-- C4: a non-nil AppendEntries response with `Success = false` and
`Term > currentTerm` makes `sendFlushRequest` return
`(resp.Term, false, "Step down")` immediately with `prevLogIndex` untouched
(peer.go:207-209), and the heartbeat iteration receiving that flush result
ends in `steppedDown` — one non-blocking step-down send attempt followed by
loop termination — whichever way the `select` resolves (peer.go:255-263). -/
theorem flush_step_down (currentTerm commitIndex : Nat) (p : Peer)
    (req : AppendEntriesRequest) (resp : AppendEntriesResponse)
    (hfail : resp.success = false) (hterm : currentTerm < resp.term) :
    sendFlushRequest currentTerm p (some req) (some resp)
      = ⟨resp.term, false, some .stepDown, p⟩
    ∧ ∀ (stepDownAccepts : Bool) (snapReq? : Option SnapshotRequest)
        (snapResp? : Option SnapshotResponse) (snapErr : Option RErr),
        heartbeatStep currentTerm commitIndex p true (some req) (some resp)
            snapReq? snapResp? snapErr stepDownAccepts
          = .steppedDown p resp.term stepDownAccepts := by
  have h1 : sendFlushRequest currentTerm p (some req) (some resp)
      = ⟨resp.term, false, some .stepDown, p⟩ := by
    simp only [sendFlushRequest, hfail, Bool.false_eq_true, if_false, hterm, if_true]
  refine ⟨h1, fun stepDownAccepts snapReq? snapResp? snapErr => ?_⟩
  simp only [heartbeatStep, flush, h1]
  simp [hterm]

/-- C4 witness: the theorem applied at a concrete stale-term failure. -/
theorem flush_step_down_witness :
    sendFlushRequest 5 ⟨"peer1", 6⟩ (some ⟨[]⟩) (some ⟨9, false, 0⟩)
      = ⟨9, false, some .stepDown, ⟨"peer1", 6⟩⟩
    ∧ heartbeatStep 5 2 ⟨"peer1", 6⟩ true (some ⟨[]⟩) (some ⟨9, false, 0⟩)
        none none none false
      = .steppedDown ⟨"peer1", 6⟩ 9 false :=
  ⟨(flush_step_down 5 2 ⟨"peer1", 6⟩ ⟨[]⟩ ⟨9, false, 0⟩ rfl (by decide)).1,
   (flush_step_down 5 2 ⟨"peer1", 6⟩ ⟨[]⟩ ⟨9, false, 0⟩ rfl (by decide)).2
     false none none none⟩

/-- C5: when the AppendEntries dispatch yields no response — the timeout
branch won the race or the transport delivered nil, both read as `nil` from
the 2-slot channel (peer.go:189-194) — the flush returns
`(0, false, "Network problem")` with the peer state unchanged, and the
heartbeat iteration absorbs the failure and continues to the next timer
cycle (peer.go:253-263: `0 > currentTerm` never holds). -/
theorem flush_network_problem (currentTerm commitIndex : Nat) (p : Peer)
    (req : AppendEntriesRequest) :
    sendFlushRequest currentTerm p (some req) none
      = ⟨0, false, some .networkProblem, p⟩
    ∧ ∀ (stepDownAccepts : Bool) (snapReq? : Option SnapshotRequest)
        (snapResp? : Option SnapshotResponse) (snapErr : Option RErr),
        heartbeatStep currentTerm commitIndex p true (some req) none
            snapReq? snapResp? snapErr stepDownAccepts
          = .continued p none := by
  refine ⟨rfl, fun stepDownAccepts snapReq? snapResp? snapErr => ?_⟩
  simp only [heartbeatStep, flush]
  simp [sendFlushRequest, Nat.not_lt_zero]

/-- C7: exactly one send path executes per flush: a non-nil request from
`createAppendEntriesRequest` goes through `sendFlushRequest`, a nil one
falls back to the Snapshot path (peer.go:111-123); and a successful Snapshot
response sets `prevLogIndex` to exactly the request's `LastIndex`
(peer.go:154-156). -/
theorem flush_exactly_one_path (currentTerm : Nat) (p : Peer)
    (aeReq? : Option AppendEntriesRequest) (aeResp? : Option AppendEntriesResponse)
    (snapReq? : Option SnapshotRequest) (snapResp? : Option SnapshotResponse)
    (snapErr : Option RErr) :
    (∀ req, aeReq? = some req →
        flush currentTerm p aeReq? aeResp? snapReq? snapResp? snapErr
          = .ok (sendFlushRequest currentTerm p (some req) aeResp?))
    ∧ (aeReq? = none →
        flush currentTerm p aeReq? aeResp? snapReq? snapResp? snapErr
          = sendSnapshotRequest p snapReq? snapResp? snapErr)
    ∧ (∀ (sreq : SnapshotRequest) (sresp : SnapshotResponse),
        sresp.success = true →
        sendSnapshotRequest p (some sreq) (some sresp) snapErr
          = .ok ⟨sresp.term, sresp.success, snapErr,
                 { p with prevLogIndex := sreq.lastIndex }⟩) := by
  refine ⟨fun req h => ?_, fun h => ?_, fun sreq sresp hs => ?_⟩
  · rw [h]
    rfl
  · rw [h]
    rfl
  · simp [sendSnapshotRequest, hs]

/-- C7 witness: the theorem applied with no buildable AppendEntries request
and a successful snapshot response. -/
theorem flush_exactly_one_path_witness :
    flush 1 ⟨"peer1", 2⟩ none none (some ⟨7⟩) (some ⟨1, true⟩) none
      = sendSnapshotRequest ⟨"peer1", 2⟩ (some ⟨7⟩) (some ⟨1, true⟩) none
    ∧ sendSnapshotRequest ⟨"peer1", 2⟩ (some ⟨7⟩) (some ⟨1, true⟩) none
      = .ok ⟨1, true, none, ⟨"peer1", 7⟩⟩ :=
  ⟨(flush_exactly_one_path 1 ⟨"peer1", 2⟩ none none (some ⟨7⟩) (some ⟨1, true⟩)
      none).2.1 rfl,
   (flush_exactly_one_path 1 ⟨"peer1", 2⟩ none none (some ⟨7⟩) (some ⟨1, true⟩)
      none).2.2 ⟨7⟩ ⟨1, true⟩ rfl⟩

/-- C9: in a heartbeat iteration whose flush returned normally, the
`FlushResponse` is forwarded on the node's commit channel exactly when the
flush succeeded and the peer's `prevLogIndex` now strictly exceeds the
node's `CommitIndex()` (peer.go:246-251); in every other successful case
nothing is forwarded and the loop continues. -/
theorem heartbeat_commit_notification (currentTerm commitIndex : Nat) (p : Peer)
    (aeReq? : Option AppendEntriesRequest) (aeResp? : Option AppendEntriesResponse)
    (snapReq? : Option SnapshotRequest) (snapResp? : Option SnapshotResponse)
    (snapErr : Option RErr) (stepDownAccepts : Bool) (r : SendResult)
    (hok : flush currentTerm p aeReq? aeResp? snapReq? snapResp? snapErr = .ok r) :
    (commitSent (heartbeatStep currentTerm commitIndex p true aeReq? aeResp?
          snapReq? snapResp? snapErr stepDownAccepts)
        = some ⟨r.term, r.success, r.err, r.peer⟩
      ↔ r.success = true ∧ commitIndex < r.peer.prevLogIndex)
    ∧ (r.success = true → r.peer.prevLogIndex ≤ commitIndex →
        heartbeatStep currentTerm commitIndex p true aeReq? aeResp?
            snapReq? snapResp? snapErr stepDownAccepts
          = .continued r.peer none) := by
  simp only [heartbeatStep, hok]
  by_cases hs : r.success = true
  · by_cases hlt : commitIndex < r.peer.prevLogIndex
    · constructor
      · simp [commitSent, hs, hlt]
      · intro _ hle
        exact absurd hlt (Nat.not_lt.mpr hle)
    · constructor
      · simp [commitSent, hs, hlt]
      · intro _ _
        simp [hs, hlt]
  · have hs' : r.success = false := by
      cases h : r.success
      · rfl
      · exact absurd h hs
    constructor
    · by_cases ht : currentTerm < r.term
      · simp [commitSent, hs', ht]
      · simp [commitSent, hs', ht]
    · intro h
      exact absurd h hs

/-- C9 witness: a successful flush that advances past the node's commit
index is forwarded as the exact `FlushResponse`. -/
theorem heartbeat_commit_notification_witness :
    commitSent (heartbeatStep 1 6 ⟨"peer1", 5⟩ true (some ⟨[⟨6⟩, ⟨7⟩]⟩)
        (some ⟨1, true, 0⟩) none none none false)
      = some ⟨1, true, none, ⟨"peer1", 7⟩⟩ :=
  (heartbeat_commit_notification 1 6 ⟨"peer1", 5⟩ (some ⟨[⟨6⟩, ⟨7⟩]⟩)
      (some ⟨1, true, 0⟩) none none none false ⟨1, true, none, ⟨"peer1", 7⟩⟩
      rfl).1.mpr ⟨rfl, by decide⟩

/-- Helper: a successful-response flush attempt whose request is built from
the peer's current `prevLogIndex` never moves the cursor backwards: every
entry the request carries has index strictly past `prevLogIndex`. -/
theorem flushStep_mono (currentTerm : Nat) (p : Peer) (log : List LogEntry)
    (resp : AppendEntriesResponse) (hs : resp.success = true) :
    p.prevLogIndex ≤ (flushStep currentTerm p log resp).prevLogIndex := by
  have hreq : createAppendEntriesRequest log true p.prevLogIndex
      = some ⟨log.filter (fun e => p.prevLogIndex < e.index)⟩ := rfl
  unfold flushStep
  rw [hreq]
  simp only [sendFlushRequest, hs, if_true]
  cases hl : (log.filter (fun e => decide (p.prevLogIndex < e.index))).getLast? with
  | none => simp [hl]
  | some e =>
      have hmem := List.mem_of_mem_getLast? hl
      have hfilt := List.of_mem_filter hmem
      simp only [decide_eq_true_eq] at hfilt
      simp [hl]
      exact Nat.le_of_lt hfilt

/-- Helper: running a concatenation of flush sequences is running one after
the other. -/
theorem runFlushes_append (currentTerm : Nat) (p : Peer)
    (steps extra : List (List LogEntry × AppendEntriesResponse)) :
    runFlushes currentTerm p (steps ++ extra)
      = runFlushes currentTerm (runFlushes currentTerm p steps) extra := by
  induction steps generalizing p with
  | nil => rfl
  | cons s rest ih =>
      obtain ⟨log, resp⟩ := s
      simp only [List.cons_append, runFlushes]
      exact ih (flushStep currentTerm p log resp)

/-- Helper: across a sequence of successful-response flush attempts the
cursor never decreases. -/
theorem runFlushes_mono (currentTerm : Nat)
    (steps : List (List LogEntry × AppendEntriesResponse)) :
    ∀ p : Peer, (∀ s ∈ steps, (Prod.snd s).success = true) →
      p.prevLogIndex ≤ (runFlushes currentTerm p steps).prevLogIndex := by
  induction steps with
  | nil =>
      intro p _
      exact Nat.le_refl _
  | cons s rest ih =>
      intro p h
      obtain ⟨log, resp⟩ := s
      have h1 : resp.success = true := h (log, resp) (List.mem_cons_self _ _)
      have h2 : ∀ s ∈ rest, (Prod.snd s).success = true :=
        fun s hs => h s (List.mem_cons_of_mem _ hs)
      simp only [runFlushes]
      exact Nat.le_trans (flushStep_mono currentTerm p log resp h1)
        (ih (flushStep currentTerm p log resp) h2)

/-- C2: on a successful AppendEntries flush carrying entries,
`prevLogIndex` right after the flush equals the index of the last entry of
that request (peer.go:200-203); with zero entries it is untouched; and
across any sequence of successful flushes whose requests are built by the
node from the current `prevLogIndex`, the cursor is non-decreasing. -/
theorem sendFlushRequest_monotonic_advance :
    (∀ (currentTerm : Nat) (p : Peer) (req : AppendEntriesRequest)
        (resp : AppendEntriesResponse) (e : LogEntry),
        resp.success = true → req.entries.getLast? = some e →
        (sendFlushRequest currentTerm p (some req) (some resp)).peer.prevLogIndex
          = e.index)
    ∧ (∀ (currentTerm : Nat) (p : Peer) (req : AppendEntriesRequest)
        (resp : AppendEntriesResponse),
        resp.success = true → req.entries = [] →
        (sendFlushRequest currentTerm p (some req) (some resp)).peer = p)
    ∧ (∀ (currentTerm : Nat) (p : Peer)
        (steps extra : List (List LogEntry × AppendEntriesResponse)),
        (∀ s ∈ steps ++ extra, (Prod.snd s).success = true) →
        (runFlushes currentTerm p steps).prevLogIndex
          ≤ (runFlushes currentTerm p (steps ++ extra)).prevLogIndex) := by
  refine ⟨fun currentTerm p req resp e hs hl => ?_,
          fun currentTerm p req resp hs hnil => ?_,
          fun currentTerm p steps extra h => ?_⟩
  · simp [sendFlushRequest, hs, hl]
  · simp [sendFlushRequest, hs, hnil]
  · rw [runFlushes_append]
    exact runFlushes_mono currentTerm extra (runFlushes currentTerm p steps)
      (fun s hs => h s (List.mem_append_right _ hs))

/-- C2 witness: the spec's own example — `prevLogIndex` 5, a successful
flush of entries with indices 6 and 7 lands the cursor at 7, and a
one-flush successful extension never lowers the cursor. -/
theorem sendFlushRequest_monotonic_advance_witness :
    (sendFlushRequest 1 ⟨"peer1", 5⟩ (some ⟨[⟨6⟩, ⟨7⟩]⟩)
        (some ⟨1, true, 0⟩)).peer.prevLogIndex = 7
    ∧ (runFlushes 1 ⟨"peer1", 5⟩ []).prevLogIndex
        ≤ (runFlushes 1 ⟨"peer1", 5⟩
            ([] ++ [([⟨6⟩, ⟨7⟩], ⟨1, true, 0⟩)])).prevLogIndex :=
  ⟨sendFlushRequest_monotonic_advance.1 1 ⟨"peer1", 5⟩ ⟨[⟨6⟩, ⟨7⟩]⟩
     ⟨1, true, 0⟩ ⟨7⟩ rfl rfl,
   sendFlushRequest_monotonic_advance.2.2 1 ⟨"peer1", 5⟩ []
     [([⟨6⟩, ⟨7⟩], ⟨1, true, 0⟩)] (by decide)⟩

/-- C8, counterexample: at the concrete input of a failed response with
`CommitIndex = 9` against `prevLogIndex = 0`, the commit-index-correction
path of `sendFlushRequest` (peer.go:212-213) — not the successful
AppendEntries branch — moves `prevLogIndex` forward from 0 to 9, refuting
the claim that the successful-AppendEntries advance is the only place
`prevLogIndex` increases. -/
theorem prevLogIndex_advance_counterexample :
    sendFlushRequest 5 ⟨"peer1", 0⟩ (some ⟨[]⟩) (some ⟨3, false, 9⟩)
      = ⟨3, false, none, ⟨"peer1", 9⟩⟩ := rfl

/-- C8 (amended): `prevLogIndex` moves forward in exactly three places:
the successful-AppendEntries advance to the last entry sent
(peer.go:201-202), the failed-AppendEntries commit-index correction to
`resp.CommitIndex` (peer.go:212-213), and the successful-Snapshot jump to
the request's `LastIndex` (peer.go:154-155); no other operation — the
remaining branches of both send paths, `clone`, `NewPeer` — ever increases
it. -/
theorem prevLogIndex_increase_sites (currentTerm : Nat) (p : Peer)
    (req? : Option AppendEntriesRequest) (resp? : Option AppendEntriesResponse)
    (snapReq? : Option SnapshotRequest) (snapResp? : Option SnapshotResponse)
    (snapErr : Option RErr) :
    (p.prevLogIndex < (sendFlushRequest currentTerm p req? resp?).peer.prevLogIndex →
        (∃ req resp e, req? = some req ∧ resp? = some resp ∧
            resp.success = true ∧ req.entries.getLast? = some e ∧
            (sendFlushRequest currentTerm p req? resp?).peer.prevLogIndex = e.index)
        ∨ (∃ resp, resp? = some resp ∧ resp.success = false ∧
            resp.term ≤ currentTerm ∧ p.prevLogIndex < resp.commitIndex ∧
            (sendFlushRequest currentTerm p req? resp?).peer.prevLogIndex
              = resp.commitIndex))
    ∧ (∀ r : SendResult,
        sendSnapshotRequest p snapReq? snapResp? snapErr = .ok r →
        p.prevLogIndex < r.peer.prevLogIndex →
        ∃ sreq sresp, snapReq? = some sreq ∧ snapResp? = some sresp ∧
          sresp.success = true ∧ r.peer.prevLogIndex = sreq.lastIndex)
    ∧ (clone p).prevLogIndex = p.prevLogIndex
    ∧ (∀ nm : String, (NewPeer nm).prevLogIndex = 0) := by
  refine ⟨?_, ?_, rfl, fun nm => rfl⟩
  · intro hlt
    match req? with
    | none => simp [sendFlushRequest] at hlt
    | some req =>
      match resp? with
      | none => simp [sendFlushRequest] at hlt
      | some resp =>
        cases hs : resp.success with
        | true =>
            cases hl : req.entries.getLast? with
            | none => simp [sendFlushRequest, hs, hl] at hlt
            | some e =>
                exact Or.inl ⟨req, resp, e, rfl, rfl, hs, hl,
                  by simp [sendFlushRequest, hs, hl]⟩
        | false =>
            by_cases ht : currentTerm < resp.term
            · simp [sendFlushRequest, hs, ht] at hlt
            · by_cases hc : p.prevLogIndex < resp.commitIndex
              · exact Or.inr ⟨resp, rfl, hs, Nat.not_lt.mp ht, hc,
                  by simp [sendFlushRequest, hs, ht, hc]⟩
              · by_cases hp : 0 < p.prevLogIndex
                · have : (sendFlushRequest currentTerm p (some req)
                      (some resp)).peer.prevLogIndex = p.prevLogIndex - 1 := by
                    simp [sendFlushRequest, hs, ht, hc, hp]
                  omega
                · have : (sendFlushRequest currentTerm p (some req)
                      (some resp)).peer.prevLogIndex = p.prevLogIndex := by
                    simp [sendFlushRequest, hs, ht, hc, hp]
                  omega
  · intro r hok hlt
    match snapReq? with
    | none =>
        simp only [sendSnapshotRequest, FlushOutcome.ok.injEq] at hok
        rw [← hok] at hlt
        exact absurd hlt (Nat.lt_irrefl _)
    | some sreq =>
      match snapResp? with
      | none =>
          simp only [sendSnapshotRequest, FlushOutcome.ok.injEq] at hok
          rw [← hok] at hlt
          exact absurd hlt (Nat.lt_irrefl _)
      | some sresp =>
          cases hs : sresp.success with
          | false => simp [sendSnapshotRequest, hs] at hok
          | true =>
              refine ⟨sreq, sresp, rfl, rfl, hs, ?_⟩
              simp only [sendSnapshotRequest, hs, if_true,
                FlushOutcome.ok.injEq] at hok
              rw [← hok]

/-- C8 amended-claim witness: the theorem applied at the counterexample
input — the increase from 0 to 9 is classified as the commit-index
correction site. -/
theorem prevLogIndex_increase_sites_witness :
    (∃ req resp e,
        (some ⟨[]⟩ : Option AppendEntriesRequest) = some req ∧
        (some ⟨3, false, 9⟩ : Option AppendEntriesResponse) = some resp ∧
        resp.success = true ∧ req.entries.getLast? = some e ∧
        (sendFlushRequest 5 ⟨"peer1", 0⟩ (some ⟨[]⟩)
            (some ⟨3, false, 9⟩)).peer.prevLogIndex = e.index)
    ∨ (∃ resp,
        (some ⟨3, false, 9⟩ : Option AppendEntriesResponse) = some resp ∧
        resp.success = false ∧ resp.term ≤ 5 ∧
        (0:Nat) < resp.commitIndex ∧
        (sendFlushRequest 5 ⟨"peer1", 0⟩ (some ⟨[]⟩)
            (some ⟨3, false, 9⟩)).peer.prevLogIndex = resp.commitIndex) :=
  (prevLogIndex_increase_sites 5 ⟨"peer1", 0⟩ (some ⟨[]⟩) (some ⟨3, false, 9⟩)
      none none none).1 (by decide)

end Raft
